import Mathlib

/-!
Verification of the cloudglue-python client facade.

This file shallowly embeds the two pieces of logic of the repository:
the polling helper that is inlined in `Extract.run`, `Describe.run`,
`Files.upload`, `Collections.add_video` and `Collections.add_youtube_video`
(src/cloudglue/client/resources.py), and the server-sent-event decoder
`_iter_sse_events` (src/cloudglue/client/resources/responses.py).
Exceptions are embedded as `Except` values, transport calls as explicit
outcome arguments, and the fetch sequence of a polling loop as a function
from the fetch index to its outcome.
-/

/-- The uniform error type `CloudGlueError` of
src/cloudglue/client/resources.py, lines 17-33: a message plus optional
status code, response payload, headers and reason phrase. -/
structure CloudGlueError where
  message : String
  status_code : Option Nat
  data : Option String
  headers : Option (List (String × String))
  reason : Option String
deriving Repr, DecidableEq

/-- The exceptions that can travel through a facade method's `try` block:
the transport-level `ApiException` (carrying status, data, headers and
reason), an already-wrapped `CloudGlueError`, Python's `TimeoutError`,
`ValueError` and any other exception.  Each carries the string that
`str(e)` renders to. -/
inductive PyExc where
  | api (message : String) (status : Option Nat) (data : Option String)
      (headers : Option (List (String × String))) (reason : Option String)
  | cg (e : CloudGlueError)
  | timeoutErr (message : String)
  | valueErr (message : String)
  | otherErr (message : String)
deriving Repr, DecidableEq

/-- `str(e)` for each embedded exception; for a `CloudGlueError` this is its
message (its `__init__` forwards the message to `Exception.__init__`). -/
def msgOf : PyExc → String
  | .api m _ _ _ _ => m
  | .cg e => e.message
  | .timeoutErr m => m
  | .valueErr m => m
  | .otherErr m => m

/-- The two `except` clauses every facade method ends with:
`except ApiException as e: raise CloudGlueError(str(e), e.status, e.data,
e.headers, e.reason)` and `except Exception as e: raise
CloudGlueError(str(e))`. -/
def handleExc : PyExc → CloudGlueError
  | .api m s d h r => ⟨m, s, d, h, r⟩
  | e => ⟨msgOf e, none, none, none, none⟩

/-- A nested facade call (e.g. `Extract.get` invoked from inside
`Extract.run`): its handler turns any exception into a raised
`CloudGlueError`, which keeps propagating as an exception. -/
def wrapFacade (r : Except PyExc α) : Except PyExc α :=
  match r with
  | .ok a => .ok a
  | .error e => .error (.cg (handleExc e))

/-- The outermost `except` clauses of a public method: what the caller
finally receives, either a value or a `CloudGlueError`. -/
def outerWrap (r : Except PyExc α) : Except CloudGlueError α :=
  match r with
  | .ok a => .ok a
  | .error e => .error (handleExc e)

/-- The polling loop shared by `Extract.run` (resources.py lines 579-591),
`Describe.run` (701-713), `Files.upload` (772-786) and
`Collections.add_video` / `add_youtube_video` (257-271, 319-333):

  elapsed = 0
  while elapsed < timeout:
      status = fetch()
      if status.status in terminal_states: return status
      time.sleep(poll_interval)
      elapsed += poll_interval
  raise TimeoutError(msg)

`fetch n` is the outcome of the (n+1)-st status fetch, `term` the terminal
test on the fetched object.  The returned `Nat` counts the fetches
performed.  The extra fuel argument only makes the recursion structural;
`none` (fuel exhausted) is unreachable for `0 < interval` once the fuel is
at least `timeout + 1`, which is what `poll` passes. -/
def pollLoop (fetch : Nat → Except PyExc α) (term : α → Bool)
    (interval timeout : Nat) (msg : String) :
    Nat → Nat → Nat → Option (Except PyExc α × Nat)
  | 0, _, _ => none
  | fuel + 1, elapsed, n =>
    if elapsed < timeout then
      match fetch n with
      | .error e => some (.error e, n + 1)
      | .ok s =>
        if term s then some (.ok s, n + 1)
        else pollLoop fetch term interval timeout msg fuel (elapsed + interval) (n + 1)
    else
      some (.error (.timeoutErr msg), n)

/-- The polling loop started with `elapsed = 0` and no fetches yet. -/
def poll (fetch : Nat → Except PyExc α) (term : α → Bool)
    (interval timeout : Nat) (msg : String) : Option (Except PyExc α × Nat) :=
  pollLoop fetch term interval timeout msg (timeout + 1) 0 0

/-- `status.status in ["completed", "failed"]` — the terminal set of the
job polling loops in `Extract.run` and `Describe.run`. -/
def jobTerminal (st : String) : Bool :=
  st == "completed" || st == "failed"

/-- `status.status in ["ready", "completed", "failed", "not_applicable"]` —
the terminal set of the resource polling loops in `Files.upload`,
`Collections.add_video` and `Collections.add_youtube_video`. -/
def resourceTerminal (st : String) : Bool :=
  st == "ready" || st == "completed" || st == "failed" || st == "not_applicable"

def extractTimeoutMsg (t : Nat) : String :=
  "Extraction job did not complete within " ++ toString t ++ " seconds"

def describeTimeoutMsg (t : Nat) : String :=
  "Describe job did not complete within " ++ toString t ++ " seconds"

def fileTimeoutMsg (t : Nat) : String :=
  "File processing did not complete within " ++ toString t ++ " seconds"

def videoTimeoutMsg (t : Nat) : String :=
  "Video processing did not complete within " ++ toString t ++ " seconds"

/-- `Extract.get` (resources.py lines 530-548): one transport call, both
`except` clauses. `transport` is the outcome of `self.api.get_extract`. -/
def Extract_get (transport : Except PyExc α) : Except PyExc α :=
  wrapFacade transport

/-- `Share.get` (resources/share.py lines 53-70): one transport call, both
`except` clauses. `transport` is the outcome of
`self.api.get_shareable_asset`. -/
def Share_get (transport : Except PyExc α) : Except PyExc α :=
  wrapFacade transport

/-- Python truthiness of an `Optional[str]`: falsy iff `None` or `""`. -/
def pyTruthyStr : Option String → Bool
  | none => false
  | some s => !s.isEmpty

/-- Python truthiness of an `Optional[Dict]` (modelled as an association
list): falsy iff `None` or `{}`. -/
def pyTruthyDict : Option (List (String × String)) → Bool
  | none => false
  | some l => !l.isEmpty

def promptSchemaMsg : String := "Either prompt or schema must be provided"

/-- `Extract.create` (resources.py lines 496-528): raise
`ValueError("Either prompt or schema must be provided")` when both
`prompt` and `schema` are falsy — the ValueError is caught by the
method's own generic `except` clause and re-raised as a message-only
`CloudGlueError` — otherwise call `self.api.create_extract` once and wrap
its outcome.  The second component counts `create_extract` invocations. -/
def Extract_create (prompt : Option String) (schema : Option (List (String × String)))
    (transport : Except PyExc β) : Except PyExc β × Nat :=
  if !pyTruthyStr prompt && !pyTruthyDict schema then
    (wrapFacade (.error (.valueErr promptSchemaMsg)), 0)
  else
    (wrapFacade transport, 1)

/-- `Extract.run` (resources.py lines 550-595): `self.create`, then the
polling loop with terminal set `["completed", "failed"]`, all inside one
`try` whose handlers are `handleExc`.  `createT` is the outcome of the
`create_extract` transport call, `fetchT n` that of the (n+1)-st
`get_extract` call, `statusOf` reads the `.status` field.  Returns what
the caller receives plus the `create_extract` and `get_extract` call
counts. -/
def Extract_run (prompt : Option String) (schema : Option (List (String × String)))
    (createT : Except PyExc β) (fetchT : Nat → Except PyExc α)
    (statusOf : α → String) (interval timeout : Nat) :
    Except CloudGlueError α × Nat × Nat :=
  match Extract_create prompt schema createT with
  | (.error e, c) => (outerWrap (α := α) (.error e), c, 0)
  | (.ok _, c) =>
    match poll (fun n => Extract_get (fetchT n)) (fun s => jobTerminal (statusOf s))
        interval timeout (extractTimeoutMsg timeout) with
    | some (r, k) => (outerWrap r, c, k)
    | none => (.error (handleExc (.otherErr ("poll fuel exhausted"))), c, 0)

/-- `Describe.run` (resources.py lines 664-718): `self.create` (which
always issues one `create_describe` transport call and wraps failures),
then the job polling loop, inside one `try` handled by `handleExc`. -/
def Describe_run (createT : Except PyExc β) (fetchT : Nat → Except PyExc α)
    (statusOf : α → String) (interval timeout : Nat) :
    Except CloudGlueError α × Nat × Nat :=
  match wrapFacade createT with
  | .error e => (outerWrap (α := α) (.error e), 1, 0)
  | .ok _ =>
    match poll (fun n => wrapFacade (fetchT n)) (fun s => jobTerminal (statusOf s))
        interval timeout (describeTimeoutMsg timeout) with
    | some (r, k) => (outerWrap r, 1, k)
    | none => (.error (handleExc (.otherErr ("poll fuel exhausted"))), 1, 0)

/-- `Files.upload` (resources.py lines 728-791): `FileNotFoundError` when
the path does not exist (caught by the generic clause), one `upload_file`
transport call, immediate return unless `wait_until_finish`, else the
resource polling loop whose fetches go through the nested facade
`self.get`. -/
def Files_upload (fileExists : Bool) (filePathStr : String)
    (uploadT : Except PyExc α) (fetchT : Nat → Except PyExc α)
    (statusOf : α → String) (waitUntilFinish : Bool) (interval timeout : Nat) :
    Except CloudGlueError α × Nat × Nat :=
  if !fileExists then
    (.error (handleExc (.otherErr ("File not found: " ++ filePathStr))), 0, 0)
  else
    match uploadT with
    | .error e => (outerWrap (α := α) (.error e), 1, 0)
    | .ok resp =>
      if !waitUntilFinish then (.ok resp, 1, 0)
      else
        match poll (fun n => wrapFacade (fetchT n))
            (fun s => resourceTerminal (statusOf s)) interval timeout
            (fileTimeoutMsg timeout) with
        | some (r, k) => (outerWrap r, 1, k)
        | none => (.error (handleExc (.otherErr ("poll fuel exhausted"))), 1, 0)

/-- `Collections.add_video` (resources.py lines 219-276): one `add_video`
transport call, immediate return unless `wait_until_finish`, else the
resource polling loop whose fetches go through the nested facade
`self.get_video`. -/
def Collections_add_video (addT : Except PyExc α) (fetchT : Nat → Except PyExc α)
    (statusOf : α → String) (waitUntilFinish : Bool) (interval timeout : Nat) :
    Except CloudGlueError α × Nat × Nat :=
  match addT with
  | .error e => (outerWrap (α := α) (.error e), 1, 0)
  | .ok resp =>
    if !waitUntilFinish then (.ok resp, 1, 0)
    else
      match poll (fun n => wrapFacade (fetchT n))
          (fun s => resourceTerminal (statusOf s)) interval timeout
          (videoTimeoutMsg timeout) with
      | some (r, k) => (outerWrap r, 1, k)
      | none => (.error (handleExc (.otherErr ("poll fuel exhausted"))), 1, 0)

/-- `Collections.add_youtube_video` (resources.py lines 278-338): same
shape as `add_video` with the `add_you_tube_video` transport call. -/
def Collections_add_youtube_video (addT : Except PyExc α)
    (fetchT : Nat → Except PyExc α) (statusOf : α → String)
    (waitUntilFinish : Bool) (interval timeout : Nat) :
    Except CloudGlueError α × Nat × Nat :=
  match addT with
  | .error e => (outerWrap (α := α) (.error e), 1, 0)
  | .ok resp =>
    if !waitUntilFinish then (.ok resp, 1, 0)
    else
      match poll (fun n => wrapFacade (fetchT n))
          (fun s => resourceTerminal (statusOf s)) interval timeout
          (videoTimeoutMsg timeout) with
      | some (r, k) => (outerWrap r, 1, k)
      | none => (.error (handleExc (.otherErr ("poll fuel exhausted"))), 1, 0)


/-! ### Polling loop lemmas -/

/-- When every fetch succeeds with a non-terminal status, the loop runs
until `elapsed >= timeout` and times out, having fetched once per
iteration: `ceil((timeout - elapsed) / interval)` more times. -/
theorem pollLoop_timeout {α : Type} (fetch : Nat → Except PyExc α) (term : α → Bool)
    (p t : Nat) (msg : String) (hp : 0 < p)
    (hnt : ∀ i, ∃ s, fetch i = .ok s ∧ term s = false) :
    ∀ fuel elapsed n, t - elapsed < fuel →
      pollLoop fetch term p t msg fuel elapsed n =
        some (.error (.timeoutErr msg), n + (t - elapsed + p - 1) / p) := by
  intro fuel
  induction fuel with
  | zero => intro elapsed n h; omega
  | succ fuel ih =>
    intro elapsed n h
    rw [pollLoop]
    by_cases he : elapsed < t
    · obtain ⟨s, hs, hterm⟩ := hnt n
      simp only [if_pos he, hs, hterm, Bool.false_eq_true, if_false]
      rw [ih (elapsed + p) (n + 1) (by omega)]
      congr 1
      congr 1
      have hd : 0 < t - elapsed := by omega
      have h1 : t - (elapsed + p) = t - elapsed - p := by omega
      rw [h1]
      set d := t - elapsed with hdd
      have h2 : d + p - 1 = (d - 1) + p := by omega
      rw [h2, Nat.add_div_right _ hp]
      by_cases hdp : p ≤ d
      · have : d - p + p - 1 = d - 1 := by omega
        rw [this]
        omega
      · have h3 : d - p = 0 := by omega
        rw [h3]
        have h4 : (0 + p - 1) / p = 0 := Nat.div_eq_of_lt (by omega)
        have h5 : (d - 1) / p = 0 := Nat.div_eq_of_lt (by omega)
        omega
    · rw [if_neg he]
      have : t - elapsed = 0 := by omega
      rw [this]
      have : (0 + p - 1) / p = 0 := Nat.div_eq_of_lt (by omega)
      rw [this]
      rfl

/-- When fetches before index `K` succeed non-terminal and fetch `K`
succeeds terminal, and fetch `K` is reached within the budget, the loop
stops at fetch `K` and returns its status object unchanged. -/
theorem pollLoop_hit {α : Type} (fetch : Nat → Except PyExc α) (term : α → Bool)
    (p t K : Nat) (msg : String) (sK : α)
    (hpre : ∀ i, i < K → ∃ s, fetch i = .ok s ∧ term s = false)
    (hK : fetch K = .ok sK) (hterm : term sK = true) :
    ∀ fuel elapsed n, n ≤ K → K - n < fuel → elapsed + (K - n) * p < t →
      pollLoop fetch term p t msg fuel elapsed n = some (.ok sK, K + 1) := by
  intro fuel
  induction fuel with
  | zero => intro elapsed n _ h _; omega
  | succ fuel ih =>
    intro elapsed n hn h hreach
    have he : elapsed < t := by
      have := Nat.zero_le ((K - n) * p)
      omega
    rw [pollLoop]
    by_cases hnk : n = K
    · subst hnk
      simp only [if_pos he, hK, hterm, if_true]
    · have hlt : n < K := by omega
      obtain ⟨s, hs, hsf⟩ := hpre n hlt
      simp only [if_pos he, hs, hsf, Bool.false_eq_true, if_false]
      apply ih (elapsed + p) (n + 1) (by omega) (by omega)
      have hsplit : K - n = (K - (n + 1)) + 1 := by omega
      rw [hsplit, Nat.succ_mul] at hreach
      omega

/-- When fetches before index `K` succeed non-terminal and fetch `K`
raises, and fetch `K` is reached within the budget, the loop aborts with
that exception after `K + 1` fetches. -/
theorem pollLoop_err {α : Type} (fetch : Nat → Except PyExc α) (term : α → Bool)
    (p t K : Nat) (msg : String) (ex : PyExc)
    (hpre : ∀ i, i < K → ∃ s, fetch i = .ok s ∧ term s = false)
    (hK : fetch K = .error ex) :
    ∀ fuel elapsed n, n ≤ K → K - n < fuel → elapsed + (K - n) * p < t →
      pollLoop fetch term p t msg fuel elapsed n = some (.error ex, K + 1) := by
  intro fuel
  induction fuel with
  | zero => intro elapsed n _ h _; omega
  | succ fuel ih =>
    intro elapsed n hn h hreach
    have he : elapsed < t := by
      have := Nat.zero_le ((K - n) * p)
      omega
    rw [pollLoop]
    by_cases hnk : n = K
    · subst hnk
      simp only [if_pos he, hK]
    · have hlt : n < K := by omega
      obtain ⟨s, hs, hsf⟩ := hpre n hlt
      simp only [if_pos he, hs, hsf, Bool.false_eq_true, if_false]
      apply ih (elapsed + p) (n + 1) (by omega) (by omega)
      have hsplit : K - n = (K - (n + 1)) + 1 := by omega
      rw [hsplit, Nat.succ_mul] at hreach
      omega

/-- `poll` under all-non-terminal fetches: times out with
`ceil(t / p) = (t + p - 1) / p` fetches, and the elapsed counter
`((t + p - 1) / p) * p` has reached the budget `t`. -/
theorem poll_timeout {α : Type} (fetch : Nat → Except PyExc α) (term : α → Bool)
    (p t : Nat) (msg : String) (hp : 0 < p)
    (hnt : ∀ i, ∃ s, fetch i = .ok s ∧ term s = false) :
    poll fetch term p t msg = some (.error (.timeoutErr msg), (t + p - 1) / p) ∧
      t ≤ ((t + p - 1) / p) * p := by
  constructor
  · rw [poll, pollLoop_timeout fetch term p t msg hp hnt (t + 1) 0 0 (by omega)]
    simp
  · have h1 := Nat.div_add_mod (t + p - 1) p
    have h2 := Nat.mod_lt (t + p - 1) hp
    have h3 : ((t + p - 1) / p) * p = p * ((t + p - 1) / p) := Nat.mul_comm _ _
    omega

/-- `poll` when the first terminal status appears at fetch index `K`
(i.e. the (K+1)-st fetch) and `K * p < t`: exactly `K + 1` fetches and
the terminal object is returned unchanged. -/
theorem poll_hit {α : Type} (fetch : Nat → Except PyExc α) (term : α → Bool)
    (p t K : Nat) (msg : String) (sK : α) (hp : 0 < p)
    (hpre : ∀ i, i < K → ∃ s, fetch i = .ok s ∧ term s = false)
    (hK : fetch K = .ok sK) (hterm : term sK = true) (hreach : K * p < t) :
    poll fetch term p t msg = some (.ok sK, K + 1) := by
  have hKt : K < t + 1 := by
    have := Nat.le_mul_of_pos_right K hp
    omega
  rw [poll]
  have := pollLoop_hit fetch term p t K msg sK hpre hK hterm (t + 1) 0 0
    (Nat.zero_le K) (by omega) (by simp only [Nat.sub_zero]; omega)
  simpa using this

/-- `poll` when fetches before index `K` are non-terminal and fetch `K`
raises, with `K * p < t`: the exception propagates after `K + 1`
fetches. -/
theorem poll_err {α : Type} (fetch : Nat → Except PyExc α) (term : α → Bool)
    (p t K : Nat) (msg : String) (ex : PyExc) (hp : 0 < p)
    (hpre : ∀ i, i < K → ∃ s, fetch i = .ok s ∧ term s = false)
    (hK : fetch K = .error ex) (hreach : K * p < t) :
    poll fetch term p t msg = some (.error ex, K + 1) := by
  have hKt : K < t + 1 := by
    have := Nat.le_mul_of_pos_right K hp
    omega
  rw [poll]
  have := pollLoop_err fetch term p t K msg ex hpre hK (t + 1) 0 0
    (Nat.zero_le K) (by omega) (by simp only [Nat.sub_zero]; omega)
  simpa using this

/-- A polling loop whose fetches go through a nested facade wrapper, when
the underlying transport fetch at index `K` raises `ApiException`: the
loop aborts with the already-wrapped `CloudGlueError`. -/
theorem pollWrap_err {α : Type} (fetchT : Nat → Except PyExc α) (term : α → Bool)
    (p t K : Nat) (msg m : String) (sc : Option Nat) (d : Option String)
    (h : Option (List (String × String))) (r : Option String) (hp : 0 < p)
    (hpre : ∀ i, i < K → ∃ s, fetchT i = .ok s ∧ term s = false)
    (hK : fetchT K = .error (.api m sc d h r)) (hreach : K * p < t) :
    poll (fun n => wrapFacade (fetchT n)) term p t msg =
      some (.error (.cg ⟨m, sc, d, h, r⟩), K + 1) := by
  apply poll_err _ term p t K msg _ hp
  · intro i hi
    obtain ⟨s, hs, hsf⟩ := hpre i hi
    exact ⟨s, by rw [hs]; rfl, hsf⟩
  · rw [hK]; rfl
  · exact hreach

/-- A polling loop whose fetches go through a nested facade wrapper, when
every transport fetch succeeds with a non-terminal status: times out. -/
theorem pollWrap_timeout {α : Type} (fetchT : Nat → Except PyExc α) (term : α → Bool)
    (p t : Nat) (msg : String) (hp : 0 < p)
    (hnt : ∀ i, ∃ s, fetchT i = .ok s ∧ term s = false) :
    poll (fun n => wrapFacade (fetchT n)) term p t msg =
      some (.error (.timeoutErr msg), (t + p - 1) / p) := by
  refine (poll_timeout _ term p t msg hp ?_).1
  intro i
  obtain ⟨s, hs, hsf⟩ := hnt i
  exact ⟨s, by rw [hs]; rfl, hsf⟩

/-! ### SSE decoder (`_iter_sse_events`, resources/responses.py lines 54-102)

The decoder is parametrised by `parse : List Char → Option J`, the
embedding of `json.loads` (returning `none` exactly when the call would
raise `json.JSONDecodeError`).  All text is `List Char`. -/

/-- An SSE data payload: a JSON value when `json.loads` succeeded, the raw
string otherwise (also for the `[DONE]` sentinel). -/
inductive SSEData (J : Type) where
  | json (j : J)
  | str (s : List Char)
deriving Repr, DecidableEq

/-- One yielded record `{'event': ..., 'data': ...}`. -/
structure SSEEvent (J : Type) where
  event : Option (List Char)
  data : SSEData J
deriving Repr, DecidableEq

/-- The decoder state: the accumulating text buffer, the pending event
name, the pending data lines, and the records yielded so far. -/
structure SSEState (J : Type) where
  buffer : List Char
  currentEvent : Option (List Char)
  currentDataLines : List (List Char)
  events : List (SSEEvent J)
deriving Repr, DecidableEq

/-- Python `str.strip()` whitespace (the characters `str.strip` removes
that can occur on a physical SSE line). -/
def isPyWs (c : Char) : Bool :=
  c == ' ' || c == '\t' || c == '\n' || c == '\r' || c == '\x0b' || c == '\x0c'

/-- Python `s.strip()`. -/
def pyStrip (l : List Char) : List Char :=
  ((l.dropWhile isPyWs).reverse.dropWhile isPyWs).reverse

/-- Python `line.rstrip("\r")`: remove every trailing carriage return. -/
def rstripCR (l : List Char) : List Char :=
  (l.reverse.dropWhile (· == '\r')).reverse

/-- Python `"\n".join(lines)`. -/
def joinNL : List (List Char) → List Char
  | [] => []
  | [l] => l
  | l :: l' :: ls => l ++ '\n' :: joinNL (l' :: ls)

/-- Lines 80-87 and 94-101: join the data lines; the literal `[DONE]`
stays a string and is never handed to `json.loads`; otherwise
`json.loads` with fallback to the raw string on `JSONDecodeError`. -/
def mkPayload (parse : List Char → Option J) (raw : List Char) : SSEData J :=
  if raw = "[DONE]".data then .str raw
  else
    match parse raw with
    | some j => .json j
    | none => .str raw

/-- Lines 71-90: processing of one physical line split off the buffer.
`line.rstrip("\r")`; an `event:` line sets the pending event name, a
`data:` line appends to the pending data lines, an empty line flushes the
pending block (yielding a record only when data lines are pending) and
resets the pending state; anything else is ignored. -/
def processLine (parse : List Char → Option J) (st : SSEState J)
    (rawLine : List Char) : SSEState J :=
  let line := rstripCR rawLine
  if ("event:".data).isPrefixOf line then
    { st with currentEvent := some (pyStrip (line.drop ("event:".data).length)) }
  else if ("data:".data).isPrefixOf line then
    { st with currentDataLines :=
        st.currentDataLines ++ [pyStrip (line.drop ("data:".data).length)] }
  else if line = [] then
    if st.currentDataLines = [] then
      { st with currentEvent := none, currentDataLines := [] }
    else
      { st with
        currentEvent := none
        currentDataLines := []
        events := st.events ++
          [{ event := st.currentEvent
             data := mkPayload parse (joinNL st.currentDataLines) }] }
  else st

/-- Split a buffer into the complete (newline-terminated) lines and the
trailing remainder with no newline — the effect of the inner
`line, buffer = buffer.split(newline, 1)` loop that runs while the
buffer holds a newline. -/
def breakLines : List Char → List (List Char) × List Char
  | [] => ([], [])
  | c :: cs =>
    if c = '\n' then
      ([] :: (breakLines cs).1, (breakLines cs).2)
    else
      match breakLines cs with
      | ([], rest) => ([], c :: rest)
      | (l :: ls, rest) => ((c :: l) :: ls, rest)

/-- Replace the buffer of a state, keeping the block-processing fields. -/
def setBuffer (b : List Char) (st : SSEState J) : SSEState J :=
  ⟨b, st.currentEvent, st.currentDataLines, st.events⟩

/-- Lines 64-90, one iteration of the chunk loop: append the chunk to the
buffer, then split off and process every complete line; the trailing
remainder (no newline yet) stays buffered. -/
def feedChunk (parse : List Char → Option J) (st : SSEState J)
    (chunk : List Char) : SSEState J :=
  let p := breakLines (st.buffer ++ chunk)
  setBuffer p.2 (p.1.foldl (processLine parse) st)

def initSSE {J : Type} : SSEState J := ⟨[], none, [], []⟩

/-- Lines 92-102: after the stream ends, flush a pending block with the
same payload rule (the leftover text buffer without a trailing newline is
discarded, as in the source). -/
def finishSSE (parse : List Char → Option J) (st : SSEState J) : List (SSEEvent J) :=
  if st.currentDataLines = [] then st.events
  else
    st.events ++
      [{ event := st.currentEvent,
         data := mkPayload parse (joinNL st.currentDataLines) }]

/-- `_iter_sse_events` on a stream of already-decoded text chunks: the
full sequence of yielded records. -/
def iter_sse_events (parse : List Char → Option J)
    (chunks : List (List Char)) : List (SSEEvent J) :=
  finishSSE parse (chunks.foldl (feedChunk parse) initSSE)

/-! ### SSE decoder lemmas -/

theorem processLine_buffer {J : Type} (parse : List Char → Option J)
    (st : SSEState J) (l : List Char) :
    (processLine parse st l).buffer = st.buffer := by
  cases st
  simp only [processLine]
  split
  · rfl
  · split
    · rfl
    · split
      · split
        · rfl
        · rfl
      · rfl

theorem processLine_setBuffer {J : Type} (parse : List Char → Option J)
    (st : SSEState J) (b : List Char) (l : List Char) :
    processLine parse (setBuffer b st) l = setBuffer b (processLine parse st l) := by
  cases st
  simp only [processLine, setBuffer]
  split
  · rfl
  · split
    · rfl
    · split
      · split
        · rfl
        · rfl
      · rfl

theorem foldl_processLine_buffer {J : Type} (parse : List Char → Option J) :
    ∀ (ls : List (List Char)) (st : SSEState J),
      (ls.foldl (processLine parse) st).buffer = st.buffer := by
  intro ls
  induction ls with
  | nil => intro st; rfl
  | cons l ls ih =>
    intro st
    rw [List.foldl_cons, ih, processLine_buffer]

theorem foldl_processLine_setBuffer {J : Type} (parse : List Char → Option J) :
    ∀ (ls : List (List Char)) (st : SSEState J) (b : List Char),
      ls.foldl (processLine parse) (setBuffer b st) =
        setBuffer b (ls.foldl (processLine parse) st) := by
  intro ls
  induction ls with
  | nil => intro st b; rfl
  | cons l ls ih =>
    intro st b
    rw [List.foldl_cons, List.foldl_cons, processLine_setBuffer, ih]

theorem breakLines_nil_fst : ∀ (x : List Char),
    (breakLines x).1 = [] → (breakLines x).2 = x := by
  intro x
  induction x with
  | nil => intro _; rfl
  | cons c cs ih =>
    intro h
    rw [breakLines] at h ⊢
    by_cases hc : c = '\n'
    · rw [if_pos hc] at h
      simp at h
    · rw [if_neg hc] at h ⊢
      cases hbl : breakLines cs with
      | mk ls rest =>
        cases ls with
        | nil =>
          simp only [hbl]
          have : rest = cs := by
            have := ih (by rw [hbl])
            rw [hbl] at this
            exact this
          rw [this]
        | cons l ls' =>
          rw [hbl] at h
          simp at h

theorem breakLines_append : ∀ (x y : List Char),
    breakLines (x ++ y) =
      ((breakLines x).1 ++ (breakLines ((breakLines x).2 ++ y)).1,
       (breakLines ((breakLines x).2 ++ y)).2) := by
  intro x
  induction x with
  | nil => intro y; simp [breakLines]
  | cons c cs ih =>
    intro y
    by_cases hc : c = '\n'
    · subst hc
      have h1 : breakLines ('\n' :: cs) =
          ([] :: (breakLines cs).1, (breakLines cs).2) := by
        rw [breakLines, if_pos rfl]
      rw [List.cons_append, breakLines, if_pos rfl, ih y, h1]
      simp
    · cases hA : breakLines cs with
      | mk la ra =>
        cases la with
        | nil =>
          have hra : ra = cs := by
            have := breakLines_nil_fst cs (by rw [hA])
            rw [hA] at this
            exact this
          subst hra
          have h1 : breakLines (c :: ra) = ([], c :: ra) := by
            rw [breakLines, if_neg hc, hA]
          rw [h1]
          simp only [List.nil_append, List.cons_append]
        | cons a as =>
          have h1 : breakLines (c :: cs) = ((c :: a) :: as, ra) := by
            rw [breakLines, if_neg hc, hA]
          rw [List.cons_append, breakLines, if_neg hc, ih y, hA, h1]
          simp

theorem setBuffer_buffer {J : Type} (b : List Char) (st : SSEState J) :
    (setBuffer b st).buffer = b := rfl

theorem setBuffer_setBuffer {J : Type} (b b' : List Char) (st : SSEState J) :
    setBuffer b (setBuffer b' st) = setBuffer b st := rfl

theorem feedChunk_append {J : Type} (parse : List Char → Option J)
    (st : SSEState J) (a b : List Char) :
    feedChunk parse st (a ++ b) = feedChunk parse (feedChunk parse st a) b := by
  simp only [feedChunk, setBuffer_buffer]
  rw [← List.append_assoc, breakLines_append (st.buffer ++ a) b]
  simp only [List.foldl_append, foldl_processLine_setBuffer, setBuffer_setBuffer]

theorem foldl_feedChunk_join {J : Type} (parse : List Char → Option J) :
    ∀ (cs : List (List Char)) (st : SSEState J) (c0 : List Char),
      cs.foldl (feedChunk parse) (feedChunk parse st c0) =
        feedChunk parse st (c0 ++ cs.flatten) := by
  intro cs
  induction cs with
  | nil => intro st c0; simp
  | cons c cs ih =>
    intro st c0
    rw [List.foldl_cons, ← feedChunk_append, ih]
    simp

/-- Feeding a chunk list is the same as feeding its concatenation in one
chunk: the buffer carries text across chunk boundaries. -/
theorem iter_sse_events_join {J : Type} (parse : List Char → Option J)
    (chunks : List (List Char)) :
    iter_sse_events parse chunks = iter_sse_events parse [chunks.flatten] := by
  cases chunks with
  | nil => rfl
  | cons c cs =>
    rw [iter_sse_events, iter_sse_events, List.foldl_cons,
      foldl_feedChunk_join, List.flatten]
    rfl

/-- Prepend already-yielded records to a state. -/
def consEvents (E : List (SSEEvent J)) (st : SSEState J) : SSEState J :=
  ⟨st.buffer, st.currentEvent, st.currentDataLines, E ++ st.events⟩

theorem processLine_consEvents {J : Type} (parse : List Char → Option J)
    (E : List (SSEEvent J)) (st : SSEState J) (l : List Char) :
    processLine parse (consEvents E st) l =
      consEvents E (processLine parse st l) := by
  cases st
  simp only [processLine, consEvents]
  split
  · rfl
  · split
    · rfl
    · split
      · split
        · rfl
        · simp
      · rfl

theorem foldl_processLine_consEvents {J : Type} (parse : List Char → Option J) :
    ∀ (ls : List (List Char)) (E : List (SSEEvent J)) (st : SSEState J),
      ls.foldl (processLine parse) (consEvents E st) =
        consEvents E (ls.foldl (processLine parse) st) := by
  intro ls
  induction ls with
  | nil => intro E st; rfl
  | cons l ls ih =>
    intro E st
    rw [List.foldl_cons, List.foldl_cons, processLine_consEvents, ih]

theorem feedChunk_consEvents {J : Type} (parse : List Char → Option J)
    (E : List (SSEEvent J)) (st : SSEState J) (c : List Char) :
    feedChunk parse (consEvents E st) c = consEvents E (feedChunk parse st c) := by
  simp only [feedChunk]
  have hb : (consEvents E st).buffer = st.buffer := rfl
  rw [hb, foldl_processLine_consEvents]
  rfl

theorem finishSSE_consEvents {J : Type} (parse : List Char → Option J)
    (E : List (SSEEvent J)) (st : SSEState J) :
    finishSSE parse (consEvents E st) = E ++ finishSSE parse st := by
  simp only [finishSSE, consEvents]
  split
  · rfl
  · simp

theorem rstripCR_eq_self (l : List Char) (h : ∀ c ∈ l, c ≠ '\r') :
    rstripCR l = l := by
  rw [rstripCR]
  cases hr : l.reverse with
  | nil =>
    have : l = [] := by simpa using congrArg List.reverse hr
    simp [this]
  | cons c cs =>
    have hc : c ∈ l := by
      rw [← List.mem_reverse, hr]
      exact List.mem_cons_self c cs
    have : (c == '\r') = false := by
      simp only [beq_eq_false_iff_ne, ne_eq]
      exact h c hc
    rw [List.dropWhile_cons, this]
    simp [← hr]

theorem breakLines_single_line : ∀ (y z : List Char), (∀ c ∈ y, c ≠ '\n') →
    breakLines (y ++ '\n' :: z) = (y :: (breakLines z).1, (breakLines z).2) := by
  intro y
  induction y with
  | nil =>
    intro z _
    rw [List.nil_append, breakLines, if_pos rfl]
  | cons c y ih =>
    intro z h
    have hc : ¬c = '\n' := h c (List.mem_cons_self c y)
    rw [List.cons_append, breakLines, if_neg hc,
      ih z (fun d hd => h d (List.mem_cons_of_mem c hd))]

theorem isPrefixOf_self_append (l m : List Char) : l.isPrefixOf (l ++ m) = true := by
  induction l with
  | nil => simp [List.isPrefixOf]
  | cons a l ih => simp [List.isPrefixOf, ih]

theorem eventTag_dataLine (x : List Char) :
    ['e', 'v', 'e', 'n', 't', ':'].isPrefixOf (['d', 'a', 't', 'a', ':'] ++ x) = false := rfl

theorem processLine_dataLine {J : Type} (parse : List Char → Option J)
    (st : SSEState J) (x : List Char) (hx : ∀ c ∈ x, c ≠ '\r') :
    processLine parse st ("data:".data ++ x) =
      ⟨st.buffer, st.currentEvent, st.currentDataLines ++ [pyStrip x], st.events⟩ := by
  have hline : rstripCR ("data:".data ++ x) = "data:".data ++ x := by
    apply rstripCR_eq_self
    intro c hc
    rcases List.mem_append.mp hc with h | h
    · have : c ∈ ['d', 'a', 't', 'a', ':'] := h
      fin_cases this <;> decide
    · exact hx c h
  rw [processLine]
  simp only [hline, eventTag_dataLine, Bool.false_eq_true, if_false,
    isPrefixOf_self_append, if_true, List.drop_left]

theorem processLine_eventLine {J : Type} (parse : List Char → Option J)
    (st : SSEState J) (e : List Char) (he : ∀ c ∈ e, c ≠ '\r') :
    processLine parse st ("event:".data ++ e) =
      ⟨st.buffer, some (pyStrip e), st.currentDataLines, st.events⟩ := by
  have hline : rstripCR ("event:".data ++ e) = "event:".data ++ e := by
    apply rstripCR_eq_self
    intro c hc
    rcases List.mem_append.mp hc with h | h
    · have : c ∈ ['e', 'v', 'e', 'n', 't', ':'] := h
      fin_cases this <;> decide
    · exact he c h
  rw [processLine]
  simp only [hline, isPrefixOf_self_append, if_true, List.drop_left]

theorem processLine_blank {J : Type} (parse : List Char → Option J)
    (st : SSEState J) :
    processLine parse st [] =
      if st.currentDataLines = [] then ⟨st.buffer, none, [], st.events⟩
      else
        ⟨st.buffer, none, [],
          st.events ++
            [{ event := st.currentEvent
               data := mkPayload parse (joinNL st.currentDataLines) }]⟩ := rfl

theorem joinNL_single (l : List Char) : joinNL [l] = l := rfl

/-- Feeding one complete `data:`-block (one data line, terminated by a
blank line) from the initial state yields exactly one record, with the
payload rule of `mkPayload`, and returns to the initial state otherwise. -/
theorem feedChunk_data_block {J : Type} (parse : List Char → Option J)
    (x : List Char) (hx : ∀ c ∈ x, c ≠ '\n' ∧ c ≠ '\r') :
    feedChunk parse initSSE ("data:".data ++ x ++ "\n\n".data) =
      consEvents [{ event := none, data := mkPayload parse (pyStrip x) }] initSSE := by
  have hy : ∀ c ∈ ("data:".data ++ x), c ≠ '\n' := by
    intro c hc
    rcases List.mem_append.mp hc with h | h
    · have : c ∈ ['d', 'a', 't', 'a', ':'] := h
      fin_cases this <;> decide
    · exact (hx c h).1
  have hbl : breakLines (("data:".data ++ x) ++ '\n' :: ['\n']) =
      (["data:".data ++ x, []], []) := by
    rw [breakLines_single_line _ _ hy]
    rfl
  rw [feedChunk]
  simp only [initSSE, List.nil_append]
  have hchunk : "data:".data ++ x ++ "\n\n".data =
      ("data:".data ++ x) ++ '\n' :: ['\n'] := by
    rw [List.append_assoc]
  rw [hchunk, hbl]
  rw [List.foldl_cons, List.foldl_cons, List.foldl_nil]
  rw [processLine_dataLine parse _ x (fun c hc => (hx c hc).2)]
  rw [processLine_blank]
  simp [consEvents, setBuffer, joinNL_single]

/-- Feeding one complete `event:`-only block (no data line, terminated by
a blank line) from the initial state yields no record and resets the
pending event name: the state returns to the initial state. -/
theorem feedChunk_event_block {J : Type} (parse : List Char → Option J)
    (e : List Char) (he : ∀ c ∈ e, c ≠ '\n' ∧ c ≠ '\r') :
    feedChunk parse initSSE ("event:".data ++ e ++ "\n\n".data) = initSSE := by
  have hy : ∀ c ∈ ("event:".data ++ e), c ≠ '\n' := by
    intro c hc
    rcases List.mem_append.mp hc with h | h
    · have : c ∈ ['e', 'v', 'e', 'n', 't', ':'] := h
      fin_cases this <;> decide
    · exact (he c h).1
  have hbl : breakLines (("event:".data ++ e) ++ '\n' :: ['\n']) =
      (["event:".data ++ e, []], []) := by
    rw [breakLines_single_line _ _ hy]
    rfl
  rw [feedChunk]
  simp only [initSSE, List.nil_append]
  have hchunk : "event:".data ++ e ++ "\n\n".data =
      ("event:".data ++ e) ++ '\n' :: ['\n'] := by
    rw [List.append_assoc]
  rw [hchunk, hbl]
  rw [List.foldl_cons, List.foldl_cons, List.foldl_nil]
  rw [processLine_eventLine parse _ e (fun c hc => (he c hc).2)]
  rw [processLine_blank]
  simp [setBuffer, initSSE]

/-! ### Byte-level chunk feeding

The generator receives `bytes` chunks from `raw_response.stream(...)` and
calls `chunk.decode("utf-8")` on each chunk separately (responses.py
lines 64-66).  A chunk that is not valid UTF-8 on its own — e.g. a
multi-byte character split across a chunk boundary — makes that call
raise `UnicodeDecodeError`, which aborts the generator. -/

/-- A UTF-8 continuation byte. -/
def isCont (b : Nat) : Bool := 0x80 ≤ b && b ≤ 0xBF

/-- Valid second byte of a three-byte sequence (excludes overlong forms
and surrogates, as Python's strict UTF-8 decoder does). -/
def cont3ok (b b1 : Nat) : Bool :=
  if b = 0xE0 then 0xA0 ≤ b1 && b1 ≤ 0xBF
  else if b = 0xED then 0x80 ≤ b1 && b1 ≤ 0x9F
  else isCont b1

/-- Valid second byte of a four-byte sequence. -/
def cont4ok (b b1 : Nat) : Bool :=
  if b = 0xF0 then 0x90 ≤ b1 && b1 ≤ 0xBF
  else if b = 0xF4 then 0x80 ≤ b1 && b1 ≤ 0x8F
  else isCont b1

/-- Consume one UTF-8 sequence: given the lead byte and the following
bytes, the decoded code point and the remaining bytes, or `none` when the
sequence is invalid or incomplete. -/
def utf8Split (b : Nat) (rest : List Nat) : Option (Nat × List Nat) :=
  if b < 0x80 then some (b, rest)
  else if 0xC2 ≤ b && b ≤ 0xDF then
    match rest with
    | b1 :: rest2 =>
      if isCont b1 then some ((b - 0xC0) * 64 + (b1 - 0x80), rest2) else none
    | [] => none
  else if 0xE0 ≤ b && b ≤ 0xEF then
    match rest with
    | b1 :: b2 :: rest2 =>
      if cont3ok b b1 && isCont b2 then
        some ((b - 0xE0) * 4096 + (b1 - 0x80) * 64 + (b2 - 0x80), rest2)
      else none
    | _ => none
  else if 0xF0 ≤ b && b ≤ 0xF4 then
    match rest with
    | b1 :: b2 :: b3 :: rest2 =>
      if cont4ok b b1 && isCont b2 && isCont b3 then
        some ((b - 0xF0) * 262144 + (b1 - 0x80) * 4096 + (b2 - 0x80) * 64 + (b3 - 0x80),
          rest2)
      else none
    | _ => none
  else none

/-- Decoding loop; the fuel only makes the recursion structural (each
UTF-8 sequence consumes at least one byte, so `bs.length` fuel always
suffices — see `utf8Decode`). -/
def utf8DecodeAux : Nat → List Nat → Option (List Char)
  | _, [] => some []
  | 0, _ :: _ => none
  | fuel + 1, b :: rest =>
    match utf8Split b rest with
    | none => none
    | some (cp, rest2) => (utf8DecodeAux fuel rest2).map (fun cs => Char.ofNat cp :: cs)

/-- Python `bytes.decode("utf-8")`: `none` models a raised
`UnicodeDecodeError` (invalid or incomplete sequence). -/
def utf8Decode (bs : List Nat) : Option (List Char) :=
  utf8DecodeAux bs.length bs

/-- The chunk loop over byte chunks: each chunk is UTF-8-decoded on its
own; a failing decode raises, aborting the iteration (`true` in the
result means the abort happened). -/
def feedBytes (parse : List Char → Option J) :
    SSEState J → List (List Nat) → SSEState J × Bool
  | st, [] => (st, false)
  | st, ch :: rest =>
    match utf8Decode ch with
    | none => (st, true)
    | some cs => feedBytes parse (feedChunk parse st cs) rest

/-- `_iter_sse_events` on a stream of byte chunks: the records the
consumer obtains, and whether the generator raised `UnicodeDecodeError`
instead of terminating normally (when it raises, the end-of-stream flush
never runs). -/
def iter_sse_events_bytes (parse : List Char → Option J)
    (chunks : List (List Nat)) : List (SSEEvent J) × Bool :=
  match feedBytes parse initSSE chunks with
  | (st, true) => (st.events, true)
  | (st, false) => (finishSSE parse st, false)

theorem utf8DecodeAux_ascii : ∀ (fuel : Nat) (bs : List Nat), bs.length ≤ fuel →
    (∀ b ∈ bs, b < 128) → utf8DecodeAux fuel bs = some (bs.map Char.ofNat) := by
  intro fuel
  induction fuel with
  | zero =>
    intro bs hlen _
    cases bs with
    | nil => rfl
    | cons b bs => simp at hlen
  | succ fuel ih =>
    intro bs hlen h
    cases bs with
    | nil => rfl
    | cons b bs =>
      have hb : b < 128 := h b (List.mem_cons_self b bs)
      have hsplit : utf8Split b bs = some (b, bs) := by
        rw [utf8Split.eq_def, if_pos hb]
      rw [utf8DecodeAux, hsplit]
      simp only [Option.map]
      rw [ih bs (by simpa using hlen) (fun d hd => h d (List.mem_cons_of_mem b hd))]
      rfl

theorem utf8Decode_ascii (bs : List Nat) (h : ∀ b ∈ bs, b < 128) :
    utf8Decode bs = some (bs.map Char.ofNat) :=
  utf8DecodeAux_ascii bs.length bs (Nat.le_refl _) h

theorem flatten_map_singleton : ∀ (l : List Char),
    (l.map (fun c => [c])).flatten = l := by
  intro l
  induction l with
  | nil => rfl
  | cons c l ih =>
    rw [List.map_cons, List.flatten_cons, ih]
    rfl

theorem feedBytes_ascii_singletons {J : Type} (parse : List Char → Option J) :
    ∀ (bs : List Nat) (st : SSEState J), (∀ b ∈ bs, b < 128) →
      feedBytes parse st (bs.map (fun b => [b])) =
        (((bs.map Char.ofNat).map (fun c => [c])).foldl (feedChunk parse) st, false) := by
  intro bs
  induction bs with
  | nil => intro st _; rfl
  | cons b bs ih =>
    intro st h
    have hb : b < 128 := h b (List.mem_cons_self b bs)
    have hdec : utf8Decode [b] = some [Char.ofNat b] := by
      exact utf8Decode_ascii [b] (by intro d hd; simp at hd; omega)
    simp only [List.map_cons, feedBytes, hdec]
    rw [ih (feedChunk parse st [Char.ofNat b]) (fun d hd => h d (List.mem_cons_of_mem b hd))]
    rw [List.foldl_cons]

theorem foldl_feedChunk_flatten {J : Type} (parse : List Char → Option J)
    (chunks : List (List Char)) :
    chunks.foldl (feedChunk parse) initSSE =
      feedChunk parse initSSE chunks.flatten := by
  cases chunks with
  | nil => rfl
  | cons c cs =>
    rw [List.foldl_cons, foldl_feedChunk_join]
    rfl

/-! ### Claims -/

/-- C3, counterexample: the SSE byte stream `b"data: \xc3\xa9\n\n"` (one
well-formed block whose data text is the two-byte UTF-8 character `é`)
decodes to one record when delivered as a single chunk, but delivered as
1-byte chunks the per-chunk `chunk.decode("utf-8")` raises
`UnicodeDecodeError` on the chunk holding the lone byte `0xc3`, so the
event sequences differ.  Chunk-partition invariance as claimed therefore
fails on the code. -/
theorem sse_chunk_invariance_counterexample :
    iter_sse_events_bytes (J := Nat) (fun _ => none)
        ([100, 97, 116, 97, 58, 32, 195, 169, 10, 10].map (fun b => [b])) ≠
      iter_sse_events_bytes (J := Nat) (fun _ => none)
        [[100, 97, 116, 97, 58, 32, 195, 169, 10, 10]] := by
  decide

/-- C3, amended: for every SSE byte stream consisting only of single-byte
(ASCII) characters, decoding the stream delivered as 1-byte chunks yields
the same event sequence as decoding it delivered as one single chunk (and
in particular no decode error is raised in either case). -/
theorem sse_ascii_chunk_invariance {J : Type} (parse : List Char → Option J)
    (bs : List Nat) (hascii : ∀ b ∈ bs, b < 128) :
    iter_sse_events_bytes parse (bs.map (fun b => [b])) =
      iter_sse_events_bytes parse [bs] := by
  have h1 : feedBytes parse initSSE (bs.map (fun b => [b])) =
      (feedChunk parse initSSE (bs.map Char.ofNat), false) := by
    rw [feedBytes_ascii_singletons parse bs initSSE hascii,
      foldl_feedChunk_flatten, flatten_map_singleton]
  have h2 : feedBytes parse initSSE [bs] =
      (feedChunk parse initSSE (bs.map Char.ofNat), false) := by
    rw [feedBytes, utf8Decode_ascii bs hascii]
    rfl
  rw [iter_sse_events_bytes, iter_sse_events_bytes, h1, h2]

/-- C3, witness for the amended theorem at the ASCII stream
`"data: hi\n\n"`. -/
theorem sse_ascii_chunk_invariance_witness :
    (∀ b ∈ [100, 97, 116, 97, 58, 32, 104, 105, 10, 10], b < 128) ∧
      iter_sse_events_bytes (J := Nat) (fun _ => none)
          ([100, 97, 116, 97, 58, 32, 104, 105, 10, 10].map (fun b => [b])) =
        iter_sse_events_bytes (J := Nat) (fun _ => none)
          [[100, 97, 116, 97, 58, 32, 104, 105, 10, 10]] :=
  ⟨by decide, sse_ascii_chunk_invariance (fun _ => none) _ (by decide)⟩

/-- C6: an SSE data block whose newline-joined data-line text equals the
literal `[DONE]` yields a record whose payload is the string `[DONE]`
itself.  The statement holds for every `parse` function — in particular
for one that succeeds on every input — so the JSON parser is never
applied to that block; the second conjunct shows it on the full decoder
for the stream `"data: [DONE]\n\n"`. -/
theorem sse_done_sentinel_not_parsed {J : Type} (parse : List Char → Option J)
    (st : SSEState J) (hne : st.currentDataLines ≠ [])
    (hjoin : joinNL st.currentDataLines = "[DONE]".data) :
    processLine parse st [] =
      ⟨st.buffer, none, [],
        st.events ++ [{ event := st.currentEvent, data := .str ("[DONE]".data) }]⟩ ∧
    iter_sse_events parse ["data: [DONE]\n\n".data] =
      [{ event := none, data := .str ("[DONE]".data) }] := by
  constructor
  · rw [processLine_blank, if_neg hne, hjoin, mkPayload, if_pos rfl]
  · rfl

/-- C6, witness: a pending block whose single data line is `[DONE]`, with
a parser that succeeds on every input, still yields the string payload. -/
theorem sse_done_sentinel_not_parsed_witness :
    (([['[', 'D', 'O', 'N', 'E', ']']] : List (List Char)) ≠ []) ∧
    joinNL [['[', 'D', 'O', 'N', 'E', ']']] = "[DONE]".data ∧
    (processLine (J := Nat) (fun _ => some 7)
        ⟨[], some ['m'], [['[', 'D', 'O', 'N', 'E', ']']], []⟩ [] =
      ⟨[], none, [], [{ event := some ['m'], data := .str ("[DONE]".data) }]⟩ ∧
    iter_sse_events (J := Nat) (fun _ => some 7) ["data: [DONE]\n\n".data] =
      [{ event := none, data := .str ("[DONE]".data) }]) := by
  refine ⟨by decide, by decide, ?_⟩
  exact sse_done_sentinel_not_parsed (fun _ => some 7)
    ⟨[], some ['m'], [['[', 'D', 'O', 'N', 'E', ']']], []⟩ (by decide) (by decide)

/-- C7: a data block whose joined text is not valid JSON (and not the
sentinel) yields a record whose payload is the raw joined string, and
decoding continues: the records after that block are exactly the records
of the remaining stream, so nothing is raised and the sequence never
terminates early. -/
theorem sse_malformed_payload_degrades {J : Type} (parse : List Char → Option J)
    (x rest : List Char) (hx : ∀ c ∈ x, c ≠ '\n' ∧ c ≠ '\r')
    (hparse : parse (pyStrip x) = none)
    (hdone : pyStrip x ≠ "[DONE]".data) :
    iter_sse_events parse [("data:".data ++ x ++ "\n\n".data) ++ rest] =
      { event := none, data := SSEData.str (pyStrip x) } ::
        iter_sse_events parse [rest] := by
  have hmk : mkPayload parse (pyStrip x) = SSEData.str (pyStrip x) := by
    rw [mkPayload, if_neg hdone, hparse]
  simp only [iter_sse_events, List.foldl_cons, List.foldl_nil]
  rw [feedChunk_append, feedChunk_data_block parse x hx, hmk,
    feedChunk_consEvents, finishSSE_consEvents]
  rfl

/-- C7, witness at the malformed payload `not-json` followed by a second
block. -/
theorem sse_malformed_payload_degrades_witness :
    (∀ c ∈ ['n', 'o', 't', '-', 'j', 's', 'o', 'n'], c ≠ '\n' ∧ c ≠ '\r') ∧
    (fun (_ : List Char) => (none : Option Nat))
        (pyStrip ['n', 'o', 't', '-', 'j', 's', 'o', 'n']) = none ∧
    pyStrip ['n', 'o', 't', '-', 'j', 's', 'o', 'n'] ≠ "[DONE]".data ∧
    iter_sse_events (J := Nat) (fun _ => none)
        [("data:".data ++ ['n', 'o', 't', '-', 'j', 's', 'o', 'n'] ++ "\n\n".data) ++
          "data: [DONE]\n\n".data] =
      { event := none, data := SSEData.str (pyStrip ['n', 'o', 't', '-', 'j', 's', 'o', 'n']) } ::
        iter_sse_events (J := Nat) (fun _ => none) ["data: [DONE]\n\n".data] := by
  refine ⟨by decide, by decide, by decide, ?_⟩
  exact sse_malformed_payload_degrades (fun _ => none) _ _ (by decide) (by decide) (by decide)

/-- C10: a blank-line-terminated block containing an `event:` line but no
`data:` line yields no record, and the pending event name is reset at the
blank line: the whole stream decodes exactly as the remaining stream
alone, so the name never attaches to a later block's record. -/
theorem sse_event_only_block_no_record {J : Type} (parse : List Char → Option J)
    (e rest : List Char) (he : ∀ c ∈ e, c ≠ '\n' ∧ c ≠ '\r') :
    iter_sse_events parse [("event:".data ++ e ++ "\n\n".data) ++ rest] =
      iter_sse_events parse [rest] := by
  simp only [iter_sse_events, List.foldl_cons, List.foldl_nil]
  rw [feedChunk_append, feedChunk_event_block parse e he]

/-- C10, witness: an `event: ping`-only block followed by a data block. -/
theorem sse_event_only_block_no_record_witness :
    (∀ c ∈ ['p', 'i', 'n', 'g'], c ≠ '\n' ∧ c ≠ '\r') ∧
    iter_sse_events (J := Nat) (fun _ => none)
        [("event:".data ++ ['p', 'i', 'n', 'g'] ++ "\n\n".data) ++ "data: 7\n\n".data] =
      iter_sse_events (J := Nat) (fun _ => none) ["data: 7\n\n".data] := by
  refine ⟨by decide, ?_⟩
  exact sse_event_only_block_no_record (fun _ => none) _ _ (by decide)

/-- C8: when the stream ends with a pending block (non-empty accumulated
data lines, no trailing blank line, the text buffer fully consumed), the
decoder flushes it at end of stream: exactly one final record is yielded,
with the data lines newline-joined and the `[DONE]`/JSON/raw-string
payload rule of `mkPayload`, and the result is the same as if the stream
had been terminated by a blank line. -/
theorem sse_eos_flush_same_rule {J : Type} (parse : List Char → Option J)
    (chunks : List (List Char))
    (hne : (chunks.foldl (feedChunk parse) initSSE).currentDataLines ≠ [])
    (hbuf : (chunks.foldl (feedChunk parse) initSSE).buffer = []) :
    iter_sse_events parse chunks =
      (chunks.foldl (feedChunk parse) initSSE).events ++
        [{ event := (chunks.foldl (feedChunk parse) initSSE).currentEvent
           data := mkPayload parse
             (joinNL (chunks.foldl (feedChunk parse) initSSE).currentDataLines) }] ∧
    iter_sse_events parse chunks = iter_sse_events parse (chunks ++ [['\n']]) := by
  have hflush : iter_sse_events parse chunks =
      (chunks.foldl (feedChunk parse) initSSE).events ++
        [{ event := (chunks.foldl (feedChunk parse) initSSE).currentEvent
           data := mkPayload parse
             (joinNL (chunks.foldl (feedChunk parse) initSSE).currentDataLines) }] := by
    rw [iter_sse_events, finishSSE, if_neg hne]
  refine ⟨hflush, ?_⟩
  rw [hflush, iter_sse_events, List.foldl_append, List.foldl_cons, List.foldl_nil]
  have hfeed : feedChunk parse (chunks.foldl (feedChunk parse) initSSE) ['\n'] =
      setBuffer [] (processLine parse (chunks.foldl (feedChunk parse) initSSE) []) := by
    rw [feedChunk, hbuf]
    rfl
  rw [hfeed, processLine_blank, if_neg hne]
  rw [finishSSE]
  simp [setBuffer]

/-- C8, witness at the stream `"data: x\n"` (one data line, no trailing
blank line). -/
theorem sse_eos_flush_same_rule_witness :
    ((["data: x\n".data].foldl (feedChunk (J := Nat) (fun _ => none)) initSSE).currentDataLines ≠ []) ∧
    ((["data: x\n".data].foldl (feedChunk (J := Nat) (fun _ => none)) initSSE).buffer = []) ∧
    (iter_sse_events (J := Nat) (fun _ => none) ["data: x\n".data] =
      (["data: x\n".data].foldl (feedChunk (J := Nat) (fun _ => none)) initSSE).events ++
        [{ event := (["data: x\n".data].foldl (feedChunk (J := Nat) (fun _ => none)) initSSE).currentEvent
           data := mkPayload (fun _ => none)
             (joinNL (["data: x\n".data].foldl (feedChunk (J := Nat) (fun _ => none)) initSSE).currentDataLines) }] ∧
    iter_sse_events (J := Nat) (fun _ => none) ["data: x\n".data] =
      iter_sse_events (J := Nat) (fun _ => none) (["data: x\n".data] ++ [['\n']])) := by
  refine ⟨by decide, by decide, ?_⟩
  exact sse_eos_flush_same_rule (fun _ => none) ["data: x\n".data] (by decide) (by decide)

/-- C1: for every polling loop (the loop shared by `Extract.run`,
`Describe.run`, `Files.upload` and `Collections.add_video`) with interval
`p > 0` and budget `t`, if every fetch returns a non-terminal status the
loop raises the Timeout error exactly when the elapsed counter
(incremented by `p` per iteration from 0) reaches `t`: it performs
`ceil(t/p) = (t+p-1)/p` fetches and the final elapsed value
`((t+p-1)/p)*p` has reached `t`.  At the boundary `p = 5, t = 10` this is
2 fetches (see the witness). -/
theorem poll_times_out_after_budget {α : Type} (f : Nat → α) (term : α → Bool)
    (p t : Nat) (msg : String) (hp : 0 < p) (hnt : ∀ n, term (f n) = false) :
    poll (fun n => .ok (f n)) term p t msg =
      some (.error (.timeoutErr msg), (t + p - 1) / p) ∧
    t ≤ ((t + p - 1) / p) * p :=
  poll_timeout _ term p t msg hp (fun i => ⟨f i, rfl, hnt i⟩)

/-- C1, witness at the boundary `poll_interval = 5, timeout = 10` with a
permanently `processing` status: the loop times out after exactly 2
fetches, and `(10 + 5 - 1) / 5 = 2`. -/
theorem poll_times_out_after_budget_witness :
    0 < 5 ∧ (∀ n : Nat, jobTerminal ((fun _ => ("processing")) n) = false) ∧
    (poll (fun n => .ok ((fun _ : Nat => ("processing")) n)) jobTerminal 5 10 ("m") =
        some (.error (.timeoutErr ("m")), (10 + 5 - 1) / 5) ∧
      10 ≤ ((10 + 5 - 1) / 5) * 5) ∧
    (10 + 5 - 1) / 5 = 2 := by
  refine ⟨by decide, fun n => rfl, ?_, by decide⟩
  exact poll_times_out_after_budget (fun _ => ("processing")) jobTerminal 5 10 ("m")
    (by decide) (fun n => rfl)

/-- C2: when the N-th fetch (N ≥ 1) is the first to return a terminal
status and N is reachable within the budget ((N-1)*p < t), the polling
loop performs exactly N fetches and returns that N-th fetched status
object unmodified. -/
theorem poll_returns_first_terminal {α : Type} (f : Nat → α) (term : α → Bool)
    (p t N : Nat) (msg : String) (hp : 0 < p) (hN : 0 < N)
    (hpre : ∀ m, m < N - 1 → term (f m) = false)
    (hterm : term (f (N - 1)) = true) (hreach : (N - 1) * p < t) :
    poll (fun n => .ok (f n)) term p t msg = some (.ok (f (N - 1)), N) := by
  have h := poll_hit (fun n => .ok (f n)) term p t (N - 1) msg (f (N - 1)) hp
    (fun i hi => ⟨f i, rfl, hpre i hi⟩) rfl hterm hreach
  rw [h]
  have hN1 : N - 1 + 1 = N := by omega
  rw [hN1]

/-- C2, witness: statuses `processing, completed, ...` with `p = 5,
t = 10`: the second fetch is the first terminal one, the loop makes
exactly 2 fetches and returns its status object. -/
theorem poll_returns_first_terminal_witness :
    0 < 5 ∧ 0 < 2 ∧
    (∀ m : Nat, m < 2 - 1 →
      jobTerminal ((fun i => if i = 0 then ("processing") else ("completed")) m) = false) ∧
    jobTerminal ((fun i => if i = 0 then ("processing") else ("completed")) (2 - 1)) = true ∧
    (2 - 1) * 5 < 10 ∧
    poll (fun n => .ok ((fun i => if i = 0 then ("processing") else ("completed")) n))
        jobTerminal 5 10 ("m") =
      some (.ok ((fun i => if i = 0 then ("processing") else ("completed")) (2 - 1)), 2) := by
  refine ⟨by decide, by decide, ?_, by decide, by decide, ?_⟩
  · intro m hm
    have : m = 0 := by omega
    subst this
    decide
  · refine poll_returns_first_terminal _ jobTerminal 5 10 2 ("m") (by decide) (by decide)
      ?_ (by decide) (by decide)
    intro m hm
    have : m = 0 := by omega
    subst this
    decide

/-- C4: a facade method whose transport call raises `ApiException` (e.g.
with HTTP status 404) raises the uniform `CloudGlueError` — never the raw
transport exception type — with `status_code` equal to the transport
exception's status and the original data, headers and reason preserved;
and on every input the result of `Extract.get` / `Share.get` is either a
value or a raised `CloudGlueError`, never a raw `ApiException`. -/
theorem facade_wraps_transport_error {α : Type} (m : String) (s : Option Nat)
    (d : Option String) (h : Option (List (String × String))) (r : Option String) :
    Extract_get (α := α) (.error (.api m s d h r)) = .error (.cg ⟨m, s, d, h, r⟩) ∧
    Share_get (α := α) (.error (.api m s d h r)) = .error (.cg ⟨m, s, d, h, r⟩) ∧
    Extract_get (α := α) (.error (.api m (some 404) d h r)) =
      .error (.cg ⟨m, some 404, d, h, r⟩) ∧
    (∀ x : Except PyExc α,
      (∃ a, Extract_get x = .ok a) ∨ ∃ c, Extract_get x = .error (.cg c)) ∧
    (∀ x : Except PyExc α,
      (∃ a, Share_get x = .ok a) ∨ ∃ c, Share_get x = .error (.cg c)) := by
  refine ⟨rfl, rfl, rfl, ?_, ?_⟩ <;>
    · intro x
      match x with
      | .ok a => exact Or.inl ⟨a, rfl⟩
      | .error e => exact Or.inr ⟨handleExc e, rfl⟩

/-- C5: when both `prompt` and `schema` are absent (None or empty),
`Extract.create` raises the validation error before any transport call
(`create_extract` is invoked zero times), and `Extract.run` likewise
fails with the validation message after zero `create_extract` and zero
`get_extract` calls. -/
theorem extract_validation_before_transport {α β : Type} (prompt : Option String)
    (schema : Option (List (String × String))) (createT : Except PyExc β)
    (fetchT : Nat → Except PyExc α) (statusOf : α → String) (p t : Nat)
    (h1 : pyTruthyStr prompt = false) (h2 : pyTruthyDict schema = false) :
    Extract_create prompt schema createT =
      (.error (.cg ⟨promptSchemaMsg, none, none, none, none⟩), 0) ∧
    Extract_run prompt schema createT fetchT statusOf p t =
      (.error ⟨promptSchemaMsg, none, none, none, none⟩, 0, 0) := by
  have hc : Extract_create prompt schema createT =
      (.error (.cg ⟨promptSchemaMsg, none, none, none, none⟩), 0) := by
    rw [Extract_create, if_pos (by rw [h1, h2]; rfl)]
    rfl
  refine ⟨hc, ?_⟩
  simp only [Extract_run, hc]
  rfl

/-- C5, witness at `prompt = None, schema = None`. -/
theorem extract_validation_before_transport_witness :
    pyTruthyStr none = false ∧ pyTruthyDict none = false ∧
    (Extract_create none none (.ok (0 : Nat)) =
      (.error (.cg ⟨promptSchemaMsg, none, none, none, none⟩), 0) ∧
    Extract_run none none (.ok (0 : Nat)) (fun _ => .ok ("processing"))
        (fun s => s) 5 10 =
      (.error ⟨promptSchemaMsg, none, none, none, none⟩, 0, 0)) := by
  refine ⟨by decide, by decide, ?_⟩
  exact extract_validation_before_transport none none (.ok 0)
    (fun _ => .ok ("processing")) (fun s => s) 5 10 (by decide) (by decide)

/-- C9: for every polling variant (`Extract.run`, `Describe.run`,
`Files.upload`, `Collections.add_video`, `Collections.add_youtube_video`),
when a status fetch inside the polling loop fails with a transport error
(`ApiException` with message `m`, status `sc`, data `dd`, headers `hh`,
reason `rr`), the nested facade fetch wraps it into a `CloudGlueError`
and the variant's own generic `except Exception` branch re-wraps that, so
the caller receives a `CloudGlueError` carrying only the message: its
`status_code`, `data`, `headers` and `reason` are all `None`.  Likewise a
poll timeout reaches the caller as a message-only `CloudGlueError` (the
variant's timeout message), not as a distinct Timeout exception type. -/
theorem poll_fetch_error_rewrapped_message_only {α β : Type}
    (statusOf : α → String) (p t K : Nat) (m : String) (sc : Option Nat)
    (dd : Option String) (hh : Option (List (String × String))) (rr : Option String)
    (fetchT fetchT2 : Nat → Except PyExc α) (prompt : Option String)
    (schema : Option (List (String × String))) (b0 : β) (a0 : α)
    (hp : 0 < p) (hprompt : pyTruthyStr prompt = true)
    (hpre : ∀ i, i < K → ∃ s, fetchT i = .ok s ∧
      jobTerminal (statusOf s) = false ∧ resourceTerminal (statusOf s) = false)
    (hErr : fetchT K = .error (.api m sc dd hh rr))
    (hreach : K * p < t)
    (hnt : ∀ i, ∃ s, fetchT2 i = .ok s ∧
      jobTerminal (statusOf s) = false ∧ resourceTerminal (statusOf s) = false) :
    ((Extract_run prompt schema (.ok b0) fetchT statusOf p t).1 =
        .error ⟨m, none, none, none, none⟩ ∧
      (Describe_run (.ok b0) fetchT statusOf p t).1 =
        .error ⟨m, none, none, none, none⟩ ∧
      (Files_upload true ("f.mp4") (.ok a0) fetchT statusOf true p t).1 =
        .error ⟨m, none, none, none, none⟩ ∧
      (Collections_add_video (.ok a0) fetchT statusOf true p t).1 =
        .error ⟨m, none, none, none, none⟩ ∧
      (Collections_add_youtube_video (.ok a0) fetchT statusOf true p t).1 =
        .error ⟨m, none, none, none, none⟩) ∧
    ((Extract_run prompt schema (.ok b0) fetchT2 statusOf p t).1 =
        .error ⟨extractTimeoutMsg t, none, none, none, none⟩ ∧
      (Describe_run (.ok b0) fetchT2 statusOf p t).1 =
        .error ⟨describeTimeoutMsg t, none, none, none, none⟩ ∧
      (Files_upload true ("f.mp4") (.ok a0) fetchT2 statusOf true p t).1 =
        .error ⟨fileTimeoutMsg t, none, none, none, none⟩ ∧
      (Collections_add_video (.ok a0) fetchT2 statusOf true p t).1 =
        .error ⟨videoTimeoutMsg t, none, none, none, none⟩ ∧
      (Collections_add_youtube_video (.ok a0) fetchT2 statusOf true p t).1 =
        .error ⟨videoTimeoutMsg t, none, none, none, none⟩) := by
  have hpreJ : ∀ i, i < K → ∃ s, fetchT i = .ok s ∧ jobTerminal (statusOf s) = false :=
    fun i hi => match hpre i hi with | ⟨s, h1, h2, _⟩ => ⟨s, h1, h2⟩
  have hpreR : ∀ i, i < K → ∃ s, fetchT i = .ok s ∧ resourceTerminal (statusOf s) = false :=
    fun i hi => match hpre i hi with | ⟨s, h1, _, h3⟩ => ⟨s, h1, h3⟩
  have hntJ : ∀ i, ∃ s, fetchT2 i = .ok s ∧ jobTerminal (statusOf s) = false :=
    fun i => match hnt i with | ⟨s, h1, h2, _⟩ => ⟨s, h1, h2⟩
  have hntR : ∀ i, ∃ s, fetchT2 i = .ok s ∧ resourceTerminal (statusOf s) = false :=
    fun i => match hnt i with | ⟨s, h1, _, h3⟩ => ⟨s, h1, h3⟩
  have hpej : ∀ msg, poll (fun n => wrapFacade (fetchT n))
      (fun s => jobTerminal (statusOf s)) p t msg =
      some (.error (.cg ⟨m, sc, dd, hh, rr⟩), K + 1) :=
    fun msg => pollWrap_err fetchT _ p t K msg m sc dd hh rr hp hpreJ hErr hreach
  have hper : ∀ msg, poll (fun n => wrapFacade (fetchT n))
      (fun s => resourceTerminal (statusOf s)) p t msg =
      some (.error (.cg ⟨m, sc, dd, hh, rr⟩), K + 1) :=
    fun msg => pollWrap_err fetchT _ p t K msg m sc dd hh rr hp hpreR hErr hreach
  have htoj : ∀ msg, poll (fun n => wrapFacade (fetchT2 n))
      (fun s => jobTerminal (statusOf s)) p t msg =
      some (.error (.timeoutErr msg), (t + p - 1) / p) :=
    fun msg => pollWrap_timeout fetchT2 _ p t msg hp hntJ
  have htor : ∀ msg, poll (fun n => wrapFacade (fetchT2 n))
      (fun s => resourceTerminal (statusOf s)) p t msg =
      some (.error (.timeoutErr msg), (t + p - 1) / p) :=
    fun msg => pollWrap_timeout fetchT2 _ p t msg hp hntR
  have hcreate : Extract_create prompt schema (.ok b0 : Except PyExc β) = (.ok b0, 1) := by
    rw [Extract_create, if_neg (by rw [hprompt]; simp)]
    rfl
  have hwc : wrapFacade (.ok b0 : Except PyExc β) = .ok b0 := rfl
  refine ⟨⟨?_, ?_, ?_, ?_, ?_⟩, ?_, ?_, ?_, ?_, ?_⟩
  · simp only [Extract_run, hcreate, Extract_get]
    rw [hpej (extractTimeoutMsg t)]
    rfl
  · simp only [Describe_run, hwc]
    rw [hpej (describeTimeoutMsg t)]
    rfl
  · simp only [Files_upload]
    rw [hper (fileTimeoutMsg t)]
    rfl
  · simp only [Collections_add_video]
    rw [hper (videoTimeoutMsg t)]
    rfl
  · simp only [Collections_add_youtube_video]
    rw [hper (videoTimeoutMsg t)]
    rfl
  · simp only [Extract_run, hcreate, Extract_get]
    rw [htoj (extractTimeoutMsg t)]
    rfl
  · simp only [Describe_run, hwc]
    rw [htoj (describeTimeoutMsg t)]
    rfl
  · simp only [Files_upload]
    rw [htor (fileTimeoutMsg t)]
    rfl
  · simp only [Collections_add_video]
    rw [htor (videoTimeoutMsg t)]
    rfl
  · simp only [Collections_add_youtube_video]
    rw [htor (videoTimeoutMsg t)]
    rfl

/-- C9, witness: first fetch raises `ApiException("boom", 500)` (or, in
the timeout scenario, every fetch returns `processing`) with `p = 5,
t = 10`: every variant surfaces a message-only `CloudGlueError`. -/
theorem poll_fetch_error_rewrapped_message_only_witness :
    0 < 5 ∧
    pyTruthyStr (some ("p")) = true ∧
    (∀ i : Nat, i < 0 → ∃ s : String,
      (fun _ : Nat => (Except.error (.api ("boom") (some 500) none none none) :
        Except PyExc String)) i = .ok s ∧
      jobTerminal ((fun s : String => s) s) = false ∧
      resourceTerminal ((fun s : String => s) s) = false) ∧
    (fun _ : Nat => (Except.error (.api ("boom") (some 500) none none none) :
      Except PyExc String)) 0 = .error (.api ("boom") (some 500) none none none) ∧
    0 * 5 < 10 ∧
    (∀ i : Nat, ∃ s : String,
      (fun _ : Nat => (Except.ok ("processing") : Except PyExc String)) i = .ok s ∧
      jobTerminal ((fun s : String => s) s) = false ∧
      resourceTerminal ((fun s : String => s) s) = false) ∧
    (((Extract_run (some ("p")) none (.ok (0 : Nat))
          (fun _ => .error (.api ("boom") (some 500) none none none))
          (fun s : String => s) 5 10).1 =
        .error ⟨("boom"), none, none, none, none⟩ ∧
      (Describe_run (.ok (0 : Nat))
          (fun _ => .error (.api ("boom") (some 500) none none none))
          (fun s : String => s) 5 10).1 =
        .error ⟨("boom"), none, none, none, none⟩ ∧
      (Files_upload true ("f.mp4") (.ok ("s"))
          (fun _ => .error (.api ("boom") (some 500) none none none))
          (fun s : String => s) true 5 10).1 =
        .error ⟨("boom"), none, none, none, none⟩ ∧
      (Collections_add_video (.ok ("s"))
          (fun _ => .error (.api ("boom") (some 500) none none none))
          (fun s : String => s) true 5 10).1 =
        .error ⟨("boom"), none, none, none, none⟩ ∧
      (Collections_add_youtube_video (.ok ("s"))
          (fun _ => .error (.api ("boom") (some 500) none none none))
          (fun s : String => s) true 5 10).1 =
        .error ⟨("boom"), none, none, none, none⟩) ∧
    ((Extract_run (some ("p")) none (.ok (0 : Nat))
          (fun _ => .ok ("processing")) (fun s : String => s) 5 10).1 =
        .error ⟨extractTimeoutMsg 10, none, none, none, none⟩ ∧
      (Describe_run (.ok (0 : Nat)) (fun _ => .ok ("processing"))
          (fun s : String => s) 5 10).1 =
        .error ⟨describeTimeoutMsg 10, none, none, none, none⟩ ∧
      (Files_upload true ("f.mp4") (.ok ("s")) (fun _ => .ok ("processing"))
          (fun s : String => s) true 5 10).1 =
        .error ⟨fileTimeoutMsg 10, none, none, none, none⟩ ∧
      (Collections_add_video (.ok ("s")) (fun _ => .ok ("processing"))
          (fun s : String => s) true 5 10).1 =
        .error ⟨videoTimeoutMsg 10, none, none, none, none⟩ ∧
      (Collections_add_youtube_video (.ok ("s")) (fun _ => .ok ("processing"))
          (fun s : String => s) true 5 10).1 =
        .error ⟨videoTimeoutMsg 10, none, none, none, none⟩)) := by
  refine ⟨by decide, by decide, fun i hi => absurd hi (Nat.not_lt_zero i), rfl,
    by decide, fun i => ⟨("processing"), rfl, by decide, by decide⟩, ?_⟩
  exact poll_fetch_error_rewrapped_message_only (fun s : String => s) 5 10 0
    ("boom") (some 500) none none none
    (fun _ => .error (.api ("boom") (some 500) none none none))
    (fun _ => .ok ("processing")) (some ("p")) none (0 : Nat) ("s")
    (by decide) (by decide) (fun i hi => absurd hi (Nat.not_lt_zero i)) rfl
    (by decide) (fun i => ⟨("processing"), rfl, by decide, by decide⟩)
